import Mathlib

/-!
Verification of the consultant/skill repository layer of the go-service-api
repository.  The repository has two store implementations:

* the PostgreSQL-backed repository (package `database`), wired into the
  running service by `main.go`; its state is the three relational tables
  `skills`, `consultants`, `consultant_skills` created by `initDatabase`,
  together with the two `SERIAL` sequences.  Each operation is translated
  statement by statement, with the schema constraints (UNIQUE email,
  UNIQUE skill name, VARCHAR(100) bounds, the composite primary key of
  `consultant_skills` and its foreign keys) as the statement-level failure
  modes, and the transaction discipline of the Go code (`defer
  tx.Rollback()`, commit only on full success) as: an operation either
  commits its transaction-local state or returns the error together with
  the unchanged pre-state.

* the in-memory `Store` (package `data`), a mutex-protected trio of Go
  maps with auto-incrementing id counters, modelled as association lists
  with unique keys.
-/

namespace GoService

/-- models.Skill: `{ID int, Name string, Description string}`. -/
structure Skill where
  id : Int
  name : String
  description : String
deriving Repr, DecidableEq

/-- models.Consultant: `{ID int, Name string, Email string, SkillIDs []int, ProjectID *int}`. -/
structure Consultant where
  id : Int
  name : String
  email : String
  skillIDs : List Int
  projectID : Option Int
deriving Repr, DecidableEq

/-- models.Project: `{ID int, Name string, Description string, ClientName string}`. -/
structure Project where
  id : Int
  name : String
  description : String
  clientName : String
deriving Repr, DecidableEq

/-- The failure kinds the repository returns (the Go code returns them as
distinguishable `fmt.Errorf` strings; the handler layer dispatches on them). -/
inductive DBErr where
  | notFound (entity : String) (id : Int)
  | inUse (id : Int)
  | writeError (msg : String)
deriving Repr, DecidableEq

instance {ε α : Type} [DecidableEq ε] [DecidableEq α] : DecidableEq (Except ε α) := fun x y =>
  match x, y with
  | .error a, .error b => decidable_of_iff (a = b) (by simp)
  | .error _, .ok _ => isFalse (by simp)
  | .ok _, .error _ => isFalse (by simp)
  | .ok a, .ok b => decidable_of_iff (a = b) (by simp)

namespace Database

/-- A row of the `consultants` table. -/
structure ConsultantRow where
  id : Int
  name : String
  email : String
deriving Repr, DecidableEq

/-- The visible state of the database created by `initDatabase`: the three
tables plus the two `SERIAL` sequences. -/
structure DB where
  skills : List Skill
  consultants : List ConsultantRow
  consultantSkills : List (Int × Int)
  nextSkillID : Int
  nextConsultantID : Int
deriving Repr, DecidableEq

/-- The empty database right after `initDatabase` on a fresh instance. -/
def emptyDB : DB := ⟨[], [], [], 1, 1⟩

/-- `SELECT skill_id FROM consultant_skills WHERE consultant_id = $1`. -/
def DB.assocsOf (db : DB) (cid : Int) : List Int :=
  (db.consultantSkills.filter (fun p => p.1 == cid)).map (fun p => p.2)

/-- `INSERT INTO consultants (name, email) VALUES ($1,$2) RETURNING id`,
with the VARCHAR(100) bounds and the UNIQUE constraint on email; the
`SERIAL` column assigns `nextConsultantID`. -/
def insertConsultantRow (tx : DB) (name email : String) : Except DBErr (Int × DB) :=
  if name.length > 100 ∨ email.length > 100 then
    .error (.writeError "value too long for type character varying(100)")
  else if tx.consultants.any (fun r => r.email == email) then
    .error (.writeError "duplicate key value violates unique constraint consultants_email_key")
  else
    let newID := tx.nextConsultantID
    .ok (newID, { tx with consultants := tx.consultants ++ [⟨newID, name, email⟩],
                          nextConsultantID := newID + 1 })

/-- `INSERT INTO consultant_skills (consultant_id, skill_id) VALUES ($1,$2)`,
with the two foreign keys and the composite primary key. -/
def insertAssocRow (tx : DB) (cid sid : Int) : Except DBErr DB :=
  if ¬ tx.consultants.any (fun r => r.id == cid) then
    .error (.writeError "violates foreign key constraint consultant_skills_consultant_id_fkey")
  else if ¬ tx.skills.any (fun s => s.id == sid) then
    .error (.writeError "violates foreign key constraint consultant_skills_skill_id_fkey")
  else if tx.consultantSkills.any (fun p => p.1 == cid && p.2 == sid) then
    .error (.writeError "duplicate key value violates unique constraint consultant_skills_pkey")
  else
    .ok { tx with consultantSkills := tx.consultantSkills ++ [(cid, sid)] }

/-- The association-insert loop of `CreateConsultant`/`UpdateConsultant`:
one `INSERT` per supplied skill id, stopping at the first failure. -/
def insertAssocRows (tx : DB) (cid : Int) : List Int → Except DBErr DB
  | [] => .ok tx
  | sid :: rest =>
    match insertAssocRow tx cid sid with
    | .error e => .error e
    | .ok tx2 => insertAssocRows tx2 cid rest

/-- `GetConsultant`: reads the consultant row, then its association rows,
assembling `skillIDs` in stored order; fails with not-found when the row
is absent.  (The SQL `ProjectID` column does not exist, so the field stays nil.) -/
def GetConsultant (db : DB) (id : Int) : Except DBErr Consultant :=
  match db.consultants.find? (fun r => r.id == id) with
  | none => .error (.notFound "consultant" id)
  | some r => .ok { id := r.id, name := r.name, email := r.email,
                    skillIDs := db.assocsOf id, projectID := none }

/-- `CreateConsultant`: one transaction — insert the consultant row, then one
association row per supplied skill id; any failure rolls the transaction back
(the pre-state is returned unchanged); commit only after all inserts succeed. -/
def CreateConsultant (db : DB) (c : Consultant) : Except DBErr Consultant × DB :=
  match insertConsultantRow db c.name c.email with
  | .error e => (.error e, db)
  | .ok (newID, tx1) =>
    match insertAssocRows tx1 newID c.skillIDs with
    | .error e => (.error e, db)
    | .ok tx2 => (.ok { c with id := newID }, tx2)

/-- The effect of `UPDATE consultants SET name = $1, email = $2 WHERE id = $3`
on one row. -/
def updRow (c : Consultant) (id : Int) (r : ConsultantRow) : ConsultantRow :=
  if r.id == id then { r with name := c.name, email := c.email } else r

/-- `UpdateConsultant`: one transaction — existence check (not-found when
absent), `UPDATE` of name/email (with the UNIQUE email constraint against
other rows), overwrite of the input id with the path id, `DELETE` of all
existing associations, then one `INSERT` per new skill id; rollback on any
failure, commit only after all steps succeed. -/
def UpdateConsultant (db : DB) (id : Int) (c : Consultant) : Except DBErr Consultant × DB :=
  if ¬ db.consultants.any (fun r => r.id == id) then
    (.error (.notFound "consultant" id), db)
  else if c.name.length > 100 ∨ c.email.length > 100 then
    (.error (.writeError "value too long for type character varying(100)"), db)
  else if db.consultants.any (fun r => r.id != id && r.email == c.email) then
    (.error (.writeError "duplicate key value violates unique constraint consultants_email_key"), db)
  else
    match insertAssocRows
        { db with consultants := db.consultants.map (updRow c id),
                  consultantSkills := db.consultantSkills.filter (fun p => p.1 != id) }
        id c.skillIDs with
    | .error e => (.error e, db)
    | .ok tx3 => (.ok { c with id := id }, tx3)

/-- `DeleteConsultant`: `DELETE FROM consultants WHERE id = $1` with cascade
removal of the deleted row's association rows; not-found when zero rows
were affected. -/
def DeleteConsultant (db : DB) (id : Int) : Except DBErr Unit × DB :=
  if (db.consultants.filter (fun r => r.id == id)).length = 0 then
    (.error (.notFound "consultant" id), db)
  else
    (.ok (), { db with consultants := db.consultants.filter (fun r => r.id != id),
                       consultantSkills := db.consultantSkills.filter (fun p => p.1 != id) })

/-- `GetConsultantsBySkill`: the join of `consultants` with
`consultant_skills` filtered by skill id (one result per consultant holding
the skill, by the composite primary key), each result's full skill set then
resolved by the per-consultant secondary query. -/
def GetConsultantsBySkill (db : DB) (skillID : Int) : List Consultant :=
  (db.consultants.filter (fun r =>
      db.consultantSkills.any (fun p => p.1 == r.id && p.2 == skillID))).map
    (fun r => { id := r.id, name := r.name, email := r.email,
                skillIDs := db.assocsOf r.id, projectID := none })

/-- `GetSkill`: single-row read; not-found when absent. -/
def GetSkill (db : DB) (id : Int) : Except DBErr Skill :=
  match db.skills.find? (fun s => s.id == id) with
  | none => .error (.notFound "skill" id)
  | some s => .ok s

/-- `CreateSkill`: `INSERT INTO skills (name, description) RETURNING id`
with the VARCHAR(100) bound and the UNIQUE constraint on name; the
`SERIAL` column assigns `nextSkillID`. -/
def CreateSkill (db : DB) (sk : Skill) : Except DBErr Skill × DB :=
  if sk.name.length > 100 then
    (.error (.writeError "value too long for type character varying(100)"), db)
  else if db.skills.any (fun s => s.name == sk.name) then
    (.error (.writeError "duplicate key value violates unique constraint skills_name_key"), db)
  else
    let newID := db.nextSkillID
    (.ok { sk with id := newID },
     { db with skills := db.skills ++ [{ sk with id := newID }], nextSkillID := newID + 1 })

/-- `DeleteSkill`: first checks whether any association row references this
skill id, failing with the distinct in-use condition if so; otherwise deletes
the row (cascade would remove referencing associations, vacuous after the
check), failing not-found when zero rows were affected. -/
def DeleteSkill (db : DB) (id : Int) : Except DBErr Unit × DB :=
  if db.consultantSkills.any (fun p => p.2 == id) then
    (.error (.inUse id), db)
  else if (db.skills.filter (fun s => s.id == id)).length = 0 then
    (.error (.notFound "skill" id), db)
  else
    (.ok (), { db with skills := db.skills.filter (fun s => s.id != id),
                       consultantSkills := db.consultantSkills.filter (fun p => p.2 != id) })

/-- Well-formedness of a reachable database state: primary-key uniqueness,
`SERIAL`-assigned ids below the sequence values, and the foreign keys of
`consultant_skills`. -/
def DB.WF (db : DB) : Prop :=
  (∀ r ∈ db.consultants, r.id < db.nextConsultantID) ∧
  (db.consultants.map (fun r => r.id)).Nodup ∧
  (∀ s ∈ db.skills, s.id < db.nextSkillID) ∧
  (∀ p ∈ db.consultantSkills, (∃ r ∈ db.consultants, r.id = p.1) ∧ ∃ s ∈ db.skills, s.id = p.2)

end Database

namespace Data

/-- Lookup in a Go map modelled as an association list. -/
def mapFind (m : List (Int × α)) (k : Int) : Option α :=
  (m.find? (fun kv => kv.1 == k)).map (fun kv => kv.2)

/-- `m[k] = v` on a Go map: overwrite the entry when the key is present,
append it otherwise. -/
def mapInsert (m : List (Int × α)) (k : Int) (v : α) : List (Int × α) :=
  if m.any (fun kv => kv.1 == k) then
    m.map (fun kv => if kv.1 == k then (k, v) else kv)
  else
    m ++ [(k, v)]

/-- The in-memory `data.Store`: three Go maps plus the three
auto-incrementing id counters. -/
structure Store where
  consultants : List (Int × Consultant)
  skills : List (Int × Skill)
  projects : List (Int × Project)
  nextConsultantID : Int
  nextSkillID : Int
  nextProjectID : Int
deriving Repr, DecidableEq

/-- `Store.GetConsultant`. -/
def Store.GetConsultant (s : Store) (id : Int) : Except DBErr Consultant :=
  match mapFind s.consultants id with
  | none => .error (.notFound "consultant" id)
  | some c => .ok c

/-- `Store.CreateConsultant`: assign `nextConsultantID`, bump the counter,
store the consultant under the assigned id. -/
def Store.CreateConsultant (s : Store) (c : Consultant) : Consultant × Store :=
  let c2 := { c with id := s.nextConsultantID }
  (c2, { s with consultants := mapInsert s.consultants c2.id c2,
                nextConsultantID := s.nextConsultantID + 1 })

/-- `Store.UpdateConsultant`: not-found when the key is absent; otherwise
overwrite the input id with the path id and store the result. -/
def Store.UpdateConsultant (s : Store) (id : Int) (c : Consultant) :
    Except DBErr Consultant × Store :=
  if ¬ s.consultants.any (fun kv => kv.1 == id) then
    (.error (.notFound "consultant" id), s)
  else
    let c2 := { c with id := id }
    (.ok c2, { s with consultants := mapInsert s.consultants id c2 })

/-- `Store.DeleteConsultant`. -/
def Store.DeleteConsultant (s : Store) (id : Int) : Except DBErr Unit × Store :=
  if ¬ s.consultants.any (fun kv => kv.1 == id) then
    (.error (.notFound "consultant" id), s)
  else
    (.ok (), { s with consultants := s.consultants.filter (fun kv => kv.1 != id) })

/-- `Store.GetConsultantsBySkill`: every consultant whose skill list contains
the given skill id. -/
def Store.GetConsultantsBySkill (s : Store) (skillID : Int) : List Consultant :=
  (s.consultants.filter (fun kv => kv.2.skillIDs.any (fun i => i == skillID))).map
    (fun kv => kv.2)

/-- `Store.CreateSkill`. -/
def Store.CreateSkill (s : Store) (sk : Skill) : Skill × Store :=
  let sk2 := { sk with id := s.nextSkillID }
  (sk2, { s with skills := mapInsert s.skills sk2.id sk2,
                 nextSkillID := s.nextSkillID + 1 })

/-- `Store.UpdateSkill`. -/
def Store.UpdateSkill (s : Store) (id : Int) (sk : Skill) : Except DBErr Skill × Store :=
  if ¬ s.skills.any (fun kv => kv.1 == id) then
    (.error (.notFound "skill" id), s)
  else
    let sk2 := { sk with id := id }
    (.ok sk2, { s with skills := mapInsert s.skills id sk2 })

/-- `Store.DeleteSkill`: note that, unlike the SQL repository, it performs no
in-use check — it deletes the key whenever it is present. -/
def Store.DeleteSkill (s : Store) (id : Int) : Except DBErr Unit × Store :=
  if ¬ s.skills.any (fun kv => kv.1 == id) then
    (.error (.notFound "skill" id), s)
  else
    (.ok (), { s with skills := s.skills.filter (fun kv => kv.1 != id) })

/-- `Store.CreateProject`. -/
def Store.CreateProject (s : Store) (p : Project) : Project × Store :=
  let p2 := { p with id := s.nextProjectID }
  (p2, { s with projects := mapInsert s.projects p2.id p2,
                nextProjectID := s.nextProjectID + 1 })

/-- `Store.UpdateProject`. -/
def Store.UpdateProject (s : Store) (id : Int) (p : Project) : Except DBErr Project × Store :=
  if ¬ s.projects.any (fun kv => kv.1 == id) then
    (.error (.notFound "project" id), s)
  else
    let p2 := { p with id := id }
    (.ok p2, { s with projects := mapInsert s.projects id p2 })

/-- `Store.DeleteProject`: not-found when absent; otherwise delete the project
and, for every consultant whose `ProjectID` points at it, set that field to
nil and store the consultant back under its own key. -/
def Store.DeleteProject (s : Store) (id : Int) : Except DBErr Unit × Store :=
  if ¬ s.projects.any (fun kv => kv.1 == id) then
    (.error (.notFound "project" id), s)
  else
    let s1 := { s with projects := s.projects.filter (fun kv => kv.1 != id) }
    (.ok (), { s1 with consultants := s1.consultants.map (fun kv =>
        if kv.2.projectID == some id then (kv.1, { kv.2 with projectID := none }) else kv) })

/-- `NewStore`: the empty store with counters at 1, then `seedData`. -/
def NewStore : Store :=
  let s0 : Store := ⟨[], [], [], 1, 1, 1⟩
  let (programming, s1) := s0.CreateSkill ⟨0, "Programming", "Software development skills"⟩
  let (projectManagement, s2) :=
    s1.CreateSkill ⟨0, "Project Management", "Managing project timelines and resources"⟩
  let (dataAnalysis, s3) :=
    s2.CreateSkill ⟨0, "Data Analysis", "Analyzing and interpreting complex data"⟩
  let (webApp, s4) :=
    s3.CreateProject ⟨0, "Web Application", "Customer portal application", "Acme Inc"⟩
  let (dataWarehouse, s5) :=
    s4.CreateProject ⟨0, "Data Warehouse", "Data warehouse implementation", "BigData Corp"⟩
  let (_, s6) := s5.CreateConsultant
    ⟨0, "John Doe", "john@example.com", [programming.id, projectManagement.id], some webApp.id⟩
  let (_, s7) := s6.CreateConsultant
    ⟨0, "Jane Smith", "jane@example.com", [dataAnalysis.id], some dataWarehouse.id⟩
  let (_, s8) := s7.CreateConsultant
    ⟨0, "Bob Johnson", "bob@example.com", [programming.id, dataAnalysis.id], none⟩
  s8

/-- One mutating store call, for reasoning about arbitrary operation
sequences. -/
inductive StoreOp where
  | createConsultant (c : Consultant)
  | updateConsultant (id : Int) (c : Consultant)
  | deleteConsultant (id : Int)
  | createSkill (sk : Skill)
  | updateSkill (id : Int) (sk : Skill)
  | deleteSkill (id : Int)
  | createProject (p : Project)
  | updateProject (id : Int) (p : Project)
  | deleteProject (id : Int)

/-- The state transition of one store call (its return value dropped). -/
def applyOp (s : Store) : StoreOp → Store
  | .createConsultant c => (s.CreateConsultant c).2
  | .updateConsultant id c => (s.UpdateConsultant id c).2
  | .deleteConsultant id => (s.DeleteConsultant id).2
  | .createSkill sk => (s.CreateSkill sk).2
  | .updateSkill id sk => (s.UpdateSkill id sk).2
  | .deleteSkill id => (s.DeleteSkill id).2
  | .createProject p => (s.CreateProject p).2
  | .updateProject id p => (s.UpdateProject id p).2
  | .deleteProject id => (s.DeleteProject id).2

/-- The state after a sequence of store calls. -/
def applyOps (s : Store) (ops : List StoreOp) : Store := ops.foldl applyOp s

/-- The id-counter invariant of the store: every key ever stored is below the
corresponding counter. -/
def Store.Inv (s : Store) : Prop :=
  (∀ kv ∈ s.consultants, kv.1 < s.nextConsultantID) ∧
  (∀ kv ∈ s.skills, kv.1 < s.nextSkillID) ∧
  (∀ kv ∈ s.projects, kv.1 < s.nextProjectID)

end Data

namespace Database

/-- A successful association-insert loop appends exactly one `(cid, sid)` row
per supplied skill id to the transaction state and changes nothing else. -/
theorem insertAssocRows_ok_eq {cid : Int} :
    ∀ {sids : List Int} {tx tx2 : DB}, insertAssocRows tx cid sids = Except.ok tx2 →
      tx2 = { tx with consultantSkills :=
                tx.consultantSkills ++ sids.map (fun sid => (cid, sid)) }
  | [], tx, tx2, h => by
      simp only [insertAssocRows, Except.ok.injEq] at h
      simp [← h]
  | sid :: rest, tx, tx2, h => by
      rw [insertAssocRows] at h
      cases hrow : insertAssocRow tx cid sid with
      | error e => rw [hrow] at h; exact absurd h (by simp)
      | ok tx1 =>
          rw [hrow] at h
          have htx1 : tx1 = { tx with consultantSkills := tx.consultantSkills ++ [(cid, sid)] } := by
            unfold insertAssocRow at hrow
            split_ifs at hrow
            all_goals simp_all
          have ih := insertAssocRows_ok_eq h
          rw [ih, htx1]
          simp

/-- A successful consultant-row insert assigns the next sequence value and
appends exactly that row. -/
theorem insertConsultantRow_ok_inv {tx : DB} {name email : String} {newID : Int} {tx1 : DB}
    (h : insertConsultantRow tx name email = .ok (newID, tx1)) :
    newID = tx.nextConsultantID ∧
    tx1 = { tx with consultants := tx.consultants ++ [⟨tx.nextConsultantID, name, email⟩],
                    nextConsultantID := tx.nextConsultantID + 1 } := by
  unfold insertConsultantRow at h
  split at h
  · exact absurd h (by simp)
  split at h
  · exact absurd h (by simp)
  have h2 :
      Except.ok (Prod.mk tx.nextConsultantID
        { tx with consultants := tx.consultants ++ [⟨tx.nextConsultantID, name, email⟩],
                  nextConsultantID := tx.nextConsultantID + 1 }) =
        (Except.ok (Prod.mk newID tx1) : Except DBErr (Int × DB)) := h
  injection h2 with h12
  injection h12 with ha hb
  exact ⟨ha.symm, hb.symm⟩

/-- Characterization of a successful create: the returned consultant carries
the assigned id and the committed state holds exactly the new rows. -/
theorem createConsultant_ok_inv {db : DB} {c c2 : Consultant} {db1 : DB}
    (h : CreateConsultant db c = (.ok c2, db1)) :
    c2 = { c with id := db.nextConsultantID } ∧
    db1 = { db with
        consultants := db.consultants ++ [⟨db.nextConsultantID, c.name, c.email⟩],
        consultantSkills := db.consultantSkills ++
          c.skillIDs.map (fun sid => (db.nextConsultantID, sid)),
        nextConsultantID := db.nextConsultantID + 1 } := by
  unfold CreateConsultant at h
  revert h
  cases hrow : insertConsultantRow db c.name c.email with
  | error e => intro h; exact absurd h (by simp)
  | ok pr =>
      obtain ⟨newID, tx1⟩ := pr
      obtain ⟨hn, htx1⟩ := insertConsultantRow_ok_inv hrow
      subst hn htx1
      intro h0
      have h : (match insertAssocRows
            { db with
                consultants := db.consultants ++ [⟨db.nextConsultantID, c.name, c.email⟩],
                nextConsultantID := db.nextConsultantID + 1 }
            db.nextConsultantID c.skillIDs with
          | Except.error e => ((Except.error e : Except DBErr Consultant), db)
          | Except.ok tx2 => (Except.ok { c with id := db.nextConsultantID }, tx2)) =
          (Except.ok c2, db1) := h0
      cases hassoc : insertAssocRows
          { db with
              consultants := db.consultants ++ [⟨db.nextConsultantID, c.name, c.email⟩],
              nextConsultantID := db.nextConsultantID + 1 }
          db.nextConsultantID c.skillIDs with
      | error e => rw [hassoc] at h; simp at h
      | ok tx2 =>
          rw [hassoc] at h
          have h2 := insertAssocRows_ok_eq hassoc
          subst h2
          have h3 : (Prod.mk (Except.ok { c with id := db.nextConsultantID } :
              Except DBErr Consultant) ({ db with
                consultants := db.consultants ++ [⟨db.nextConsultantID, c.name, c.email⟩],
                consultantSkills := db.consultantSkills ++
                  c.skillIDs.map (fun sid => (db.nextConsultantID, sid)),
                nextConsultantID := db.nextConsultantID + 1 } : DB)) =
              (Except.ok c2, db1) := h
          injection h3 with ha hb
          injection ha with ha2
          exact ⟨ha2.symm, hb.symm⟩

/-- `updRow` does not change a row's id. -/
theorem updRow_id (c : Consultant) (id : Int) (r : ConsultantRow) :
    (updRow c id r).id = r.id := by
  unfold updRow
  split <;> rfl

/-- `updRow` is idempotent. -/
theorem updRow_idem (c : Consultant) (id : Int) (r : ConsultantRow) :
    updRow c id (updRow c id r) = updRow c id r := by
  unfold updRow
  by_cases h : (r.id == id) = true <;> simp [h]

/-- Characterization of a successful update: the path id overwrites the input
id, the three checks passed, and the association-insert loop committed from
the transaction state holding the updated row and no old association of the
id. -/
theorem updateConsultant_ok_inv {db : DB} {id : Int} {c c1 : Consultant} {db1 : DB}
    (h : UpdateConsultant db id c = (.ok c1, db1)) :
    c1 = { c with id := id } ∧
    db.consultants.any (fun r => r.id == id) = true ∧
    ¬(c.name.length > 100 ∨ c.email.length > 100) ∧
    db.consultants.any (fun r => r.id != id && r.email == c.email) = false ∧
    insertAssocRows
      { db with consultants := db.consultants.map (updRow c id),
                consultantSkills := db.consultantSkills.filter (fun p => p.1 != id) }
      id c.skillIDs = .ok db1 := by
  unfold UpdateConsultant at h
  split_ifs at h with h1 h2 h3
  all_goals try (exact absurd h (by simp))
  cases hassoc : insertAssocRows
      { db with consultants := db.consultants.map (updRow c id),
                consultantSkills := db.consultantSkills.filter (fun p => p.1 != id) }
      id c.skillIDs with
  | error e => rw [hassoc] at h; exact absurd h (by simp)
  | ok tx3 =>
      rw [hassoc] at h
      have h4 : (Prod.mk (Except.ok { c with id := id } : Except DBErr Consultant) tx3) =
          (Except.ok c1, db1) := h
      injection h4 with ha hb
      injection ha with ha2
      refine ⟨ha2.symm, ?_, h2, ?_, congrArg Except.ok hb⟩
      · simpa using h1
      · simpa using h3

/-- After a successful update, the association rows of the id are exactly the
supplied skill ids, in order. -/
theorem updateConsultant_assocs {db : DB} {id : Int} {c c1 : Consultant} {db1 : DB}
    (h : UpdateConsultant db id c = (.ok c1, db1)) :
    db1.assocsOf id = c.skillIDs := by
  obtain ⟨-, -, -, -, hins⟩ := updateConsultant_ok_inv h
  have hdb1 := insertAssocRows_ok_eq hins
  subst hdb1
  show (((db.consultantSkills.filter (fun p => p.1 != id)) ++
      c.skillIDs.map (fun sid => (id, sid))).filter (fun p => p.1 == id)).map
        (fun p => p.2) = c.skillIDs
  rw [List.filter_append]
  have hA : (db.consultantSkills.filter (fun p => p.1 != id)).filter
      (fun p => p.1 == id) = [] := by
    rw [List.filter_eq_nil_iff]
    intro p hp
    have h2 := (List.mem_filter.mp hp).2
    simp at h2 ⊢
    exact h2
  have hB : (c.skillIDs.map (fun sid => (id, sid))).filter (fun p => p.1 == id) =
      c.skillIDs.map (fun sid => (id, sid)) := by
    rw [List.filter_eq_self]
    intro p hp
    obtain ⟨sid, -, rfl⟩ := List.mem_map.mp hp
    simp
  rw [hA, hB]
  simp

/-- After a successful update, get returns the updated name/email under the
path id, with the freshly stored association list. -/
theorem updateConsultant_get_ok {db : DB} {id : Int} {c c1 : Consultant} {db1 : DB}
    (h : UpdateConsultant db id c = (.ok c1, db1)) :
    GetConsultant db1 id = .ok { id := id, name := c.name, email := c.email,
                                 skillIDs := db1.assocsOf id, projectID := none } := by
  obtain ⟨-, hexists, -, -, hins⟩ := updateConsultant_ok_inv h
  have hdb1 := insertAssocRows_ok_eq hins
  have hcons : db1.consultants = db.consultants.map (updRow c id) := by rw [hdb1]
  unfold GetConsultant
  rw [hcons, List.find?_map]
  have hpred : ((fun r : ConsultantRow => r.id == id) ∘ updRow c id) =
      (fun r : ConsultantRow => r.id == id) := by
    funext r
    simp [Function.comp, updRow_id]
  rw [hpred]
  obtain ⟨r0, hr0, hr0id⟩ := List.any_eq_true.mp hexists
  cases hfind : db.consultants.find? (fun r => r.id == id) with
  | none =>
      rw [List.find?_eq_none] at hfind
      exact absurd hr0id (hfind r0 hr0)
  | some r1 =>
      have hr1 := List.find?_some hfind
      have hr1id : r1.id = id := by simpa using hr1
      simp [updRow, hr1, hr1id]

end Database

namespace Data

/-- Looking up the key just written by a Go-map insert returns the written
value. -/
theorem mapFind_mapInsert {α : Type} (m : List (Int × α)) (k : Int) (v : α) :
    mapFind (mapInsert m k v) k = some v := by
  unfold mapInsert
  split_ifs with hk
  · unfold mapFind
    rw [List.find?_map]
    have hcomp : ((fun kv : Int × α => kv.1 == k) ∘ (fun kv : Int × α =>
        if kv.1 == k then (k, v) else kv)) = (fun kv : Int × α => kv.1 == k) := by
      funext kv
      by_cases h : (kv.1 == k) = true
      · simp [Function.comp, h]
      · simp [Function.comp, h]
    rw [hcomp]
    obtain ⟨kv0, hkv0, hkv0k⟩ := List.any_eq_true.mp hk
    cases hfind : m.find? (fun kv => kv.1 == k) with
    | none =>
        rw [List.find?_eq_none] at hfind
        exact absurd hkv0k (hfind kv0 hkv0)
    | some kv1 =>
        have h1 := List.find?_some hfind
        have h2 : kv1.1 = k := by simpa using h1
        simp [h2]
  · unfold mapFind
    rw [List.find?_append]
    have hnone : m.find? (fun kv : Int × α => kv.1 == k) = none := by
      rw [List.find?_eq_none]
      intro kv hkv hq
      exact hk (List.any_eq_true.mpr ⟨kv, hkv, hq⟩)
    rw [hnone]
    simp [List.find?]

/-- Every entry of a Go-map insert either carries the inserted key or was
already present. -/
theorem mapInsert_key_mem {α : Type} {m : List (Int × α)} {k : Int} {v : α} :
    ∀ kv ∈ mapInsert m k v, kv.1 = k ∨ kv ∈ m := by
  intro kv hkv
  unfold mapInsert at hkv
  split_ifs at hkv with hk
  · obtain ⟨kv0, hkv0, rfl⟩ := List.mem_map.mp hkv
    by_cases h0 : (kv0.1 == k) = true
    · left
      simp [h0]
    · right
      simpa [h0] using hkv0
  · rcases List.mem_append.mp hkv with h | h
    · exact .inr h
    · left
      have : kv = (k, v) := by simpa using h
      rw [this]

/-- Key bound preserved by a Go-map insert of a bounded key. -/
theorem mapInsert_bound {α : Type} {m : List (Int × α)} {n k : Int} {v : α}
    (hm : ∀ kv ∈ m, kv.1 < n) (hkn : k < n) :
    ∀ kv ∈ mapInsert m k v, kv.1 < n := by
  intro kv hkv
  rcases mapInsert_key_mem kv hkv with h | h
  · rw [h]; exact hkn
  · exact hm kv h

/-- Key bound preserved by filtering. -/
theorem filter_bound {α : Type} {m : List (Int × α)} {n : Int} {p : Int × α → Bool}
    (hm : ∀ kv ∈ m, kv.1 < n) : ∀ kv ∈ m.filter p, kv.1 < n :=
  fun kv hkv => hm kv (List.mem_filter.mp hkv).1

/-- Key bound preserved by the project-reference-clearing pass of
`Store.DeleteProject` (it never changes keys). -/
theorem clearProject_bound {m : List (Int × Consultant)} {n id : Int}
    (hm : ∀ kv ∈ m, kv.1 < n) :
    ∀ kv ∈ m.map (fun kv => if kv.2.projectID == some id then
        (kv.1, { kv.2 with projectID := none }) else kv), kv.1 < n := by
  intro kv hkv
  obtain ⟨kv0, hkv0, rfl⟩ := List.mem_map.mp hkv
  by_cases h0 : (kv0.2.projectID == some id) = true
  · simpa [h0] using hm kv0 hkv0
  · simpa [h0] using hm kv0 hkv0

/-- One store call preserves the id-counter invariant, and the counters never
decrease. -/
theorem applyOp_inv_mono (s : Store) (op : StoreOp) (h : s.Inv) :
    (applyOp s op).Inv ∧ s.nextConsultantID ≤ (applyOp s op).nextConsultantID ∧
    s.nextSkillID ≤ (applyOp s op).nextSkillID := by
  obtain ⟨hc, hk, hp⟩ := h
  cases op with
  | createConsultant c =>
      refine ⟨⟨?_, hk, hp⟩, ?_, le_refl _⟩
      · exact mapInsert_bound (fun kv hkv => lt_trans (hc kv hkv)
            (show s.nextConsultantID < s.nextConsultantID + 1 by omega))
          (show s.nextConsultantID < s.nextConsultantID + 1 by omega)
      · show s.nextConsultantID ≤ s.nextConsultantID + 1
        omega
  | updateConsultant id c =>
      by_cases hcond : (s.consultants.any (fun kv => kv.1 == id)) = true
      · have hid : id < s.nextConsultantID := by
          obtain ⟨kv0, hkv0, hkv0id⟩ := List.any_eq_true.mp hcond
          have h1 := hc kv0 hkv0
          have h2 : kv0.1 = id := by simpa using hkv0id
          omega
        have hres : applyOp s (.updateConsultant id c) =
            { s with consultants := mapInsert s.consultants id { c with id := id } } := by
          show (s.UpdateConsultant id c).2 = _
          unfold Store.UpdateConsultant
          rw [if_neg (not_not_intro hcond)]
        rw [hres]
        exact ⟨⟨mapInsert_bound hc hid, hk, hp⟩, le_refl _, le_refl _⟩
      · have hres : applyOp s (.updateConsultant id c) = s := by
          show (s.UpdateConsultant id c).2 = _
          unfold Store.UpdateConsultant
          rw [if_pos hcond]
        rw [hres]
        exact ⟨⟨hc, hk, hp⟩, le_refl _, le_refl _⟩
  | deleteConsultant id =>
      by_cases hcond : (s.consultants.any (fun kv => kv.1 == id)) = true
      · have hres : applyOp s (.deleteConsultant id) =
            { s with consultants := s.consultants.filter (fun kv => kv.1 != id) } := by
          show (s.DeleteConsultant id).2 = _
          unfold Store.DeleteConsultant
          rw [if_neg (not_not_intro hcond)]
        rw [hres]
        exact ⟨⟨filter_bound hc, hk, hp⟩, le_refl _, le_refl _⟩
      · have hres : applyOp s (.deleteConsultant id) = s := by
          show (s.DeleteConsultant id).2 = _
          unfold Store.DeleteConsultant
          rw [if_pos hcond]
        rw [hres]
        exact ⟨⟨hc, hk, hp⟩, le_refl _, le_refl _⟩
  | createSkill sk =>
      refine ⟨⟨hc, ?_, hp⟩, le_refl _, ?_⟩
      · exact mapInsert_bound (fun kv hkv => lt_trans (hk kv hkv)
            (show s.nextSkillID < s.nextSkillID + 1 by omega))
          (show s.nextSkillID < s.nextSkillID + 1 by omega)
      · show s.nextSkillID ≤ s.nextSkillID + 1
        omega
  | updateSkill id sk =>
      by_cases hcond : (s.skills.any (fun kv => kv.1 == id)) = true
      · have hid : id < s.nextSkillID := by
          obtain ⟨kv0, hkv0, hkv0id⟩ := List.any_eq_true.mp hcond
          have h1 := hk kv0 hkv0
          have h2 : kv0.1 = id := by simpa using hkv0id
          omega
        have hres : applyOp s (.updateSkill id sk) =
            { s with skills := mapInsert s.skills id { sk with id := id } } := by
          show (s.UpdateSkill id sk).2 = _
          unfold Store.UpdateSkill
          rw [if_neg (not_not_intro hcond)]
        rw [hres]
        exact ⟨⟨hc, mapInsert_bound hk hid, hp⟩, le_refl _, le_refl _⟩
      · have hres : applyOp s (.updateSkill id sk) = s := by
          show (s.UpdateSkill id sk).2 = _
          unfold Store.UpdateSkill
          rw [if_pos hcond]
        rw [hres]
        exact ⟨⟨hc, hk, hp⟩, le_refl _, le_refl _⟩
  | deleteSkill id =>
      by_cases hcond : (s.skills.any (fun kv => kv.1 == id)) = true
      · have hres : applyOp s (.deleteSkill id) =
            { s with skills := s.skills.filter (fun kv => kv.1 != id) } := by
          show (s.DeleteSkill id).2 = _
          unfold Store.DeleteSkill
          rw [if_neg (not_not_intro hcond)]
        rw [hres]
        exact ⟨⟨hc, filter_bound hk, hp⟩, le_refl _, le_refl _⟩
      · have hres : applyOp s (.deleteSkill id) = s := by
          show (s.DeleteSkill id).2 = _
          unfold Store.DeleteSkill
          rw [if_pos hcond]
        rw [hres]
        exact ⟨⟨hc, hk, hp⟩, le_refl _, le_refl _⟩
  | createProject p =>
      refine ⟨⟨hc, hk, ?_⟩, le_refl _, le_refl _⟩
      exact mapInsert_bound (fun kv hkv => lt_trans (hp kv hkv)
            (show s.nextProjectID < s.nextProjectID + 1 by omega))
          (show s.nextProjectID < s.nextProjectID + 1 by omega)
  | updateProject id p =>
      by_cases hcond : (s.projects.any (fun kv => kv.1 == id)) = true
      · have hid : id < s.nextProjectID := by
          obtain ⟨kv0, hkv0, hkv0id⟩ := List.any_eq_true.mp hcond
          have h1 := hp kv0 hkv0
          have h2 : kv0.1 = id := by simpa using hkv0id
          omega
        have hres : applyOp s (.updateProject id p) =
            { s with projects := mapInsert s.projects id { p with id := id } } := by
          show (s.UpdateProject id p).2 = _
          unfold Store.UpdateProject
          rw [if_neg (not_not_intro hcond)]
        rw [hres]
        exact ⟨⟨hc, hk, mapInsert_bound hp hid⟩, le_refl _, le_refl _⟩
      · have hres : applyOp s (.updateProject id p) = s := by
          show (s.UpdateProject id p).2 = _
          unfold Store.UpdateProject
          rw [if_pos hcond]
        rw [hres]
        exact ⟨⟨hc, hk, hp⟩, le_refl _, le_refl _⟩
  | deleteProject id =>
      by_cases hcond : (s.projects.any (fun kv => kv.1 == id)) = true
      · have hres : applyOp s (.deleteProject id) =
            { s with projects := s.projects.filter (fun kv => kv.1 != id),
                     consultants := s.consultants.map (fun kv =>
                       if kv.2.projectID == some id then
                         (kv.1, { kv.2 with projectID := none }) else kv) } := by
          show (s.DeleteProject id).2 = _
          unfold Store.DeleteProject
          rw [if_neg (not_not_intro hcond)]
        rw [hres]
        exact ⟨⟨clearProject_bound hc, hk, filter_bound hp⟩, le_refl _, le_refl _⟩
      · have hres : applyOp s (.deleteProject id) = s := by
          show (s.DeleteProject id).2 = _
          unfold Store.DeleteProject
          rw [if_pos hcond]
        rw [hres]
        exact ⟨⟨hc, hk, hp⟩, le_refl _, le_refl _⟩

/-- A sequence of store calls preserves the invariant; counters never
decrease. -/
theorem applyOps_inv_mono (ops : List StoreOp) (s : Store) (h : s.Inv) :
    (applyOps s ops).Inv ∧ s.nextConsultantID ≤ (applyOps s ops).nextConsultantID ∧
    s.nextSkillID ≤ (applyOps s ops).nextSkillID := by
  induction ops generalizing s with
  | nil => exact ⟨h, le_refl _, le_refl _⟩
  | cons op rest ih =>
      obtain ⟨h1, h2, h3⟩ := applyOp_inv_mono s op h
      obtain ⟨h4, h5, h6⟩ := ih (applyOp s op) h1
      exact ⟨h4, le_trans h2 h5, le_trans h3 h6⟩

end Data

open Database Data

/-- C1: consultant create is atomic — when any step fails (the consultant-row
insert or any association-row insert), create returns the failure with the
store state unchanged; when every insert succeeds, it commits exactly the new
consultant row and one association row per supplied skill id and returns the
consultant with the assigned id. -/
theorem createConsultant_atomic (db : DB) (c : Consultant) :
    (∀ e, (CreateConsultant db c).1 = .error e → (CreateConsultant db c).2 = db) ∧
    (∀ c2, (CreateConsultant db c).1 = .ok c2 →
      c2 = { c with id := db.nextConsultantID } ∧
      (CreateConsultant db c).2 =
        { db with
            consultants := db.consultants ++ [⟨db.nextConsultantID, c.name, c.email⟩],
            consultantSkills := db.consultantSkills ++
              c.skillIDs.map (fun sid => (db.nextConsultantID, sid)),
            nextConsultantID := db.nextConsultantID + 1 }) := by
  cases hrow : insertConsultantRow db c.name c.email with
  | error e =>
      constructor
      · intro e2 _; simp [CreateConsultant, hrow]
      · intro c2 hc; simp [CreateConsultant, hrow] at hc
  | ok pr =>
      obtain ⟨newID, tx1⟩ := pr
      obtain ⟨hn, htx1⟩ : newID = db.nextConsultantID ∧
          tx1 = { db with
                    consultants := db.consultants ++ [⟨db.nextConsultantID, c.name, c.email⟩],
                    nextConsultantID := db.nextConsultantID + 1 } := by
        unfold insertConsultantRow at hrow
        split at hrow
        · exact absurd hrow (by simp)
        split at hrow
        · exact absurd hrow (by simp)
        have hrow2 :
            Except.ok (Prod.mk db.nextConsultantID
              { db with
                  consultants := db.consultants ++ [⟨db.nextConsultantID, c.name, c.email⟩],
                  nextConsultantID := db.nextConsultantID + 1 }) =
              (Except.ok (Prod.mk newID tx1) : Except DBErr (Int × DB)) := hrow
        injection hrow2 with h12
        injection h12 with h1 h2
        exact ⟨h1.symm, h2.symm⟩
      subst hn htx1
      cases hassoc : insertAssocRows
          { db with
              consultants := db.consultants ++ [⟨db.nextConsultantID, c.name, c.email⟩],
              nextConsultantID := db.nextConsultantID + 1 }
          db.nextConsultantID c.skillIDs with
      | error e =>
          constructor
          · intro e2 _; simp [CreateConsultant, hrow, hassoc]
          · intro c2 hc; simp [CreateConsultant, hrow, hassoc] at hc
      | ok tx2 =>
          have h2 := insertAssocRows_ok_eq hassoc
          subst h2
          constructor
          · intro e2 he; simp [CreateConsultant, hrow, hassoc] at he
          · intro c2 hc
            simp only [CreateConsultant, hrow, hassoc] at hc ⊢
            injection hc with hc2
            exact ⟨hc2.symm, trivial⟩

/-- C1 witness: a concrete successful create commits the expected state. -/
theorem createConsultant_atomic_witness :
    (CreateConsultant ⟨[⟨1, "Go", "Backend"⟩], [], [], 2, 1⟩
        ⟨0, "Ann", "ann@x.com", [1], none⟩).1 =
      .ok ⟨1, "Ann", "ann@x.com", [1], none⟩ ∧
    (CreateConsultant ⟨[⟨1, "Go", "Backend"⟩], [], [], 2, 1⟩
        ⟨0, "Ann", "ann@x.com", [1], none⟩).2 =
      ⟨[⟨1, "Go", "Backend"⟩], [⟨1, "Ann", "ann@x.com"⟩], [(1, 1)], 2, 2⟩ := by
  refine ⟨by decide, ?_⟩
  have h := ((createConsultant_atomic ⟨[⟨1, "Go", "Backend"⟩], [], [], 2, 1⟩
      ⟨0, "Ann", "ann@x.com", [1], none⟩).2 ⟨1, "Ann", "ann@x.com", [1], none⟩ (by decide)).2
  exact h.trans (by decide)

/-- C4: for an id with no consultant row, get, update (for any input) and
delete each return the not-found failure and leave the store unchanged. -/
theorem notFound_on_absent_id (db : DB) (id : Int)
    (h : ∀ r ∈ db.consultants, r.id ≠ id) :
    GetConsultant db id = .error (.notFound "consultant" id) ∧
    (∀ c, UpdateConsultant db id c = (.error (.notFound "consultant" id), db)) ∧
    DeleteConsultant db id = (.error (.notFound "consultant" id), db) := by
  have hfind : db.consultants.find? (fun r => r.id == id) = none := by
    rw [List.find?_eq_none]
    intro r hr
    simpa using h r hr
  have hany : db.consultants.any (fun r => r.id == id) = false := by
    rw [Bool.eq_false_iff]
    intro hco
    obtain ⟨r, hr, hid⟩ := List.any_eq_true.mp hco
    exact h r hr (by simpa using hid)
  refine ⟨?_, ?_, ?_⟩
  · unfold GetConsultant
    rw [hfind]
  · intro c
    unfold UpdateConsultant
    rw [hany]
    simp
  · unfold DeleteConsultant
    have : (db.consultants.filter (fun r => r.id == id)).length = 0 := by
      rw [List.length_eq_zero, List.filter_eq_nil_iff]
      intro r hr
      simpa using h r hr
    rw [if_pos this]

/-- C4 witness: on a concrete store without id 7, all three operations fail
not-found and leave the state unchanged. -/
theorem notFound_on_absent_id_witness :
    GetConsultant ⟨[], [⟨1, "Ann", "ann@x.com"⟩], [], 1, 2⟩ 7 =
      .error (.notFound "consultant" 7) ∧
    UpdateConsultant ⟨[], [⟨1, "Ann", "ann@x.com"⟩], [], 1, 2⟩ 7
        ⟨0, "B", "b@x.com", [], none⟩ =
      (.error (.notFound "consultant" 7), ⟨[], [⟨1, "Ann", "ann@x.com"⟩], [], 1, 2⟩) ∧
    DeleteConsultant ⟨[], [⟨1, "Ann", "ann@x.com"⟩], [], 1, 2⟩ 7 =
      (.error (.notFound "consultant" 7), ⟨[], [⟨1, "Ann", "ann@x.com"⟩], [], 1, 2⟩) := by
  have h := notFound_on_absent_id ⟨[], [⟨1, "Ann", "ann@x.com"⟩], [], 1, 2⟩ 7 (by decide)
  exact ⟨h.1, h.2.1 ⟨0, "B", "b@x.com", [], none⟩, h.2.2⟩

/-- C3: for every input on a well-formed store, a successful create followed
by get on the returned id yields the same name, email and skill ids (stated
up to list equality, which implies the claimed set equality). -/
theorem create_then_get_matches (db : DB) (c c2 : Consultant) (db1 : DB)
    (hwf : db.WF) (h : CreateConsultant db c = (.ok c2, db1)) :
    ∃ g, GetConsultant db1 c2.id = .ok g ∧ g.name = c.name ∧ g.email = c.email ∧
      g.skillIDs = c.skillIDs ∧ (∀ x : Int, x ∈ g.skillIDs ↔ x ∈ c.skillIDs) := by
  obtain ⟨hc2, hdb1⟩ := createConsultant_ok_inv h
  obtain ⟨hlt, hnodup, hsk, hfk⟩ := hwf
  have hc2id : c2.id = db.nextConsultantID := by rw [hc2]
  have hcons : db1.consultants =
      db.consultants ++ [⟨db.nextConsultantID, c.name, c.email⟩] := by rw [hdb1]
  have hnone : db.consultants.find? (fun r => r.id == db.nextConsultantID) = none := by
    rw [List.find?_eq_none]
    intro r hr
    have := hlt r hr
    simp only [beq_iff_eq]
    omega
  have hassocs : db1.assocsOf db.nextConsultantID = c.skillIDs := by
    have hcs : db1.consultantSkills = db.consultantSkills ++
        c.skillIDs.map (fun sid => (db.nextConsultantID, sid)) := by rw [hdb1]
    unfold DB.assocsOf
    rw [hcs, List.filter_append]
    have hA : db.consultantSkills.filter (fun p => p.1 == db.nextConsultantID) = [] := by
      rw [List.filter_eq_nil_iff]
      intro p hp
      obtain ⟨⟨r, hr, hrid⟩, -⟩ := hfk p hp
      have := hlt r hr
      simp only [beq_iff_eq]
      omega
    have hB : (c.skillIDs.map (fun sid => (db.nextConsultantID, sid))).filter
        (fun p => p.1 == db.nextConsultantID) =
        c.skillIDs.map (fun sid => (db.nextConsultantID, sid)) := by
      rw [List.filter_eq_self]
      intro p hp
      obtain ⟨sid, -, rfl⟩ := List.mem_map.mp hp
      simp
    rw [hA, hB]
    simp
  have hget : GetConsultant db1 c2.id =
      .ok ⟨db.nextConsultantID, c.name, c.email, c.skillIDs, none⟩ := by
    rw [hc2id]
    unfold GetConsultant
    rw [hcons, List.find?_append, hnone]
    simp [List.find?, hassocs]
  exact ⟨_, hget, rfl, rfl, rfl, fun x => Iff.rfl⟩

/-- C3 witness: a concrete well-formed store and successful create. -/
theorem create_then_get_matches_witness :
    ∃ g, GetConsultant ⟨[⟨1, "Go", "Backend"⟩], [⟨1, "Ann", "ann@x.com"⟩], [(1, 1)], 2, 2⟩ 1 =
        .ok g ∧ g.name = "Ann" ∧ g.email = "ann@x.com" ∧ g.skillIDs = [1] ∧
        (∀ x : Int, x ∈ g.skillIDs ↔ x ∈ [(1 : Int)]) :=
  create_then_get_matches ⟨[⟨1, "Go", "Backend"⟩], [], [], 2, 1⟩
    ⟨0, "Ann", "ann@x.com", [1], none⟩ ⟨1, "Ann", "ann@x.com", [1], none⟩
    ⟨[⟨1, "Go", "Backend"⟩], [⟨1, "Ann", "ann@x.com"⟩], [(1, 1)], 2, 2⟩
    (by unfold DB.WF; decide) (by decide)

/-- C2: after a successful update, get returns exactly the supplied skill ids
(old associations of the id are gone), the association rows of the id are
exactly the supplied set, and running the same update again returns the same
consultant and leaves the store identical (idempotent under repetition, no
duplicated association). -/
theorem update_replaces_skill_set_idempotent (db : DB) (id : Int) (c c1 : Consultant)
    (db1 : DB) (h : UpdateConsultant db id c = (.ok c1, db1)) :
    (∃ g, GetConsultant db1 id = .ok g ∧ g.skillIDs = c.skillIDs ∧
        (∀ x : Int, x ∈ g.skillIDs ↔ x ∈ c.skillIDs)) ∧
    db1.assocsOf id = c.skillIDs ∧
    UpdateConsultant db1 id c = (.ok c1, db1) := by
  have hassoc := updateConsultant_assocs h
  have hget := updateConsultant_get_ok h
  refine ⟨⟨_, hget, by rw [hassoc], fun x => by rw [hassoc]⟩, hassoc, ?_⟩
  obtain ⟨hc1, hexists, hlen, hdup, hins⟩ := updateConsultant_ok_inv h
  have hdb1 := insertAssocRows_ok_eq hins
  have hcons : db1.consultants = db.consultants.map (updRow c id) := by rw [hdb1]
  have hcs : db1.consultantSkills = db.consultantSkills.filter (fun p => p.1 != id) ++
      c.skillIDs.map (fun sid => (id, sid)) := by rw [hdb1]
  have hpredid : ((fun r : ConsultantRow => r.id == id) ∘ updRow c id) =
      (fun r : ConsultantRow => r.id == id) := by
    funext r
    simp [Function.comp, updRow_id]
  have hcond1 : db1.consultants.any (fun r => r.id == id) = true := by
    rw [hcons, List.any_map, hpredid]
    exact hexists
  have hcond3 : db1.consultants.any (fun r => r.id != id && r.email == c.email) = false := by
    rw [hcons, List.any_map]
    have hpred : ((fun r : ConsultantRow => r.id != id && r.email == c.email) ∘ updRow c id) =
        (fun r : ConsultantRow => r.id != id && r.email == c.email) := by
      funext r
      by_cases hr : (r.id == id) = true
      · have hrid : r.id = id := by simpa using hr
        simp [Function.comp, updRow, hrid]
      · simp [Function.comp, updRow, hr]
    rw [hpred]
    exact hdup
  have e1 : db1.consultants.map (updRow c id) = db.consultants.map (updRow c id) := by
    rw [hcons, List.map_map]
    have : (updRow c id ∘ updRow c id) = updRow c id := by
      funext r
      exact updRow_idem c id r
    rw [this]
  have e2 : db1.consultantSkills.filter (fun p => p.1 != id) =
      db.consultantSkills.filter (fun p => p.1 != id) := by
    rw [hcs, List.filter_append, List.filter_filter]
    have hself : (fun (a : Int × Int) => a.1 != id && a.1 != id) =
        (fun (a : Int × Int) => a.1 != id) := by
      funext a
      exact Bool.and_self _
    have hnil : (c.skillIDs.map (fun sid => (id, sid))).filter (fun p => p.1 != id) = [] := by
      rw [List.filter_eq_nil_iff]
      intro p hp
      obtain ⟨sid, -, rfl⟩ := List.mem_map.mp hp
      simp
    rw [hself, hnil, List.append_nil]
  have e3 : db1.skills = db.skills := by rw [hdb1]
  have e4 : db1.nextSkillID = db.nextSkillID := by rw [hdb1]
  have e5 : db1.nextConsultantID = db.nextConsultantID := by rw [hdb1]
  have hTX : ({ db1 with consultants := db1.consultants.map (updRow c id),
                          consultantSkills :=
                            db1.consultantSkills.filter (fun p => p.1 != id) } : DB) =
      { db with consultants := db.consultants.map (updRow c id),
                consultantSkills := db.consultantSkills.filter (fun p => p.1 != id) } := by
    rw [e1, e2, e3, e4, e5]
  unfold UpdateConsultant
  rw [hcond1, hcond3, hTX, hins]
  simp [hlen, hc1]

/-- C2 witness: on a concrete store, a successful update replaces the skill
set and repeating it is a no-op. -/
theorem update_replaces_skill_set_idempotent_witness :
    (∃ g, GetConsultant ⟨[⟨1, "Go", "Backend"⟩, ⟨2, "SQL", ""⟩],
        [⟨1, "Ann", "ann@x.com"⟩], [(1, 2)], 3, 2⟩ 1 = .ok g ∧ g.skillIDs = [2] ∧
        (∀ x : Int, x ∈ g.skillIDs ↔ x ∈ [(2 : Int)])) ∧
    UpdateConsultant ⟨[⟨1, "Go", "Backend"⟩, ⟨2, "SQL", ""⟩],
        [⟨1, "Ann", "ann@x.com"⟩], [(1, 2)], 3, 2⟩ 1 ⟨0, "Ann", "ann@x.com", [2], none⟩ =
      (.ok ⟨1, "Ann", "ann@x.com", [2], none⟩,
       ⟨[⟨1, "Go", "Backend"⟩, ⟨2, "SQL", ""⟩], [⟨1, "Ann", "ann@x.com"⟩], [(1, 2)], 3, 2⟩) :=
  have h := update_replaces_skill_set_idempotent
    ⟨[⟨1, "Go", "Backend"⟩, ⟨2, "SQL", ""⟩], [⟨1, "Ann", "ann@x.com"⟩], [(1, 1)], 3, 2⟩ 1
    ⟨0, "Ann", "ann@x.com", [2], none⟩ ⟨1, "Ann", "ann@x.com", [2], none⟩
    ⟨[⟨1, "Go", "Backend"⟩, ⟨2, "SQL", ""⟩], [⟨1, "Ann", "ann@x.com"⟩], [(1, 2)], 3, 2⟩
    (by decide)
  ⟨h.1, h.2.2⟩

/-- A successful consultant delete removes exactly the rows with the given id
and, by cascade, their association rows. -/
theorem deleteConsultant_ok_eq {db : DB} {id : Int} {db1 : DB}
    (h : DeleteConsultant db id = (.ok (), db1)) :
    db1 = { db with consultants := db.consultants.filter (fun r => r.id != id),
                    consultantSkills := db.consultantSkills.filter (fun p => p.1 != id) } := by
  unfold DeleteConsultant at h
  split at h
  · exact absurd h (by simp)
  · injection h with h1 h2
    exact h2.symm

/-- C6: a successful consultant delete removes all of that consultant's
association rows — afterwards no association row carries its id, and for
every skill id, getBySkill no longer lists the deleted consultant. -/
theorem deleteConsultant_removes_associations (db : DB) (id : Int) (db1 : DB)
    (h : DeleteConsultant db id = (.ok (), db1)) :
    (∀ p ∈ db1.consultantSkills, p.1 ≠ id) ∧
    (∀ sid : Int, ∀ g ∈ GetConsultantsBySkill db1 sid, g.id ≠ id) := by
  have hdb1 := deleteConsultant_ok_eq h
  subst hdb1
  constructor
  · intro p hp
    have := (List.mem_filter.mp hp).2
    simpa using this
  · intro sid g hg
    obtain ⟨r, hr, hgr⟩ := List.mem_map.mp hg
    have hr2 : r ∈ db.consultants.filter (fun r => r.id != id) :=
      (List.mem_filter.mp hr).1
    have : (r.id != id) = true := (List.mem_filter.mp hr2).2
    have hid : r.id ≠ id := by simpa using this
    rw [← hgr]
    exact hid

/-- C6 witness: deleting consultant 1 on a concrete store removes its
association rows and it disappears from getBySkill. -/
theorem deleteConsultant_removes_associations_witness :
    (∀ p ∈ (DeleteConsultant
        ⟨[⟨1, "Go", "Backend"⟩], [⟨1, "Ann", "ann@x.com"⟩], [(1, 1)], 2, 2⟩ 1).2.consultantSkills,
      p.1 ≠ 1) ∧
    ∀ g ∈ GetConsultantsBySkill
        (DeleteConsultant
          ⟨[⟨1, "Go", "Backend"⟩], [⟨1, "Ann", "ann@x.com"⟩], [(1, 1)], 2, 2⟩ 1).2 1,
      g.id ≠ 1 := by
  have h := deleteConsultant_removes_associations
    ⟨[⟨1, "Go", "Backend"⟩], [⟨1, "Ann", "ann@x.com"⟩], [(1, 1)], 2, 2⟩ 1
    ⟨[⟨1, "Go", "Backend"⟩], [], [], 2, 2⟩ (by decide)
  exact ⟨h.1, h.2 1⟩

/-- C5: skill delete checks associations first — with a live referencing
association it fails with the distinct in-use error leaving the store
unchanged (the skill remains); with no referencing association and the skill
present it succeeds and removes exactly that skill; and once a consultant
delete has removed all referencing associations, deleting the skill
succeeds. -/
theorem deleteSkill_in_use_check (db : DB) (id : Int) :
    ((∃ p ∈ db.consultantSkills, p.2 = id) →
        DeleteSkill db id = (.error (.inUse id), db)) ∧
    ((∀ p ∈ db.consultantSkills, p.2 ≠ id) → (∃ s ∈ db.skills, s.id = id) →
        (DeleteSkill db id).1 = .ok () ∧
        (DeleteSkill db id).2.skills = db.skills.filter (fun s => s.id != id) ∧
        ∀ s ∈ (DeleteSkill db id).2.skills, s.id ≠ id) ∧
    (∀ cid db1, (∀ p ∈ db.consultantSkills, p.2 = id → p.1 = cid) →
        (∃ s ∈ db.skills, s.id = id) →
        DeleteConsultant db cid = (.ok (), db1) →
        (DeleteSkill db1 id).1 = .ok ()) := by
  have hok : ∀ db2 : DB, (∀ p ∈ db2.consultantSkills, p.2 ≠ id) →
      (∃ s ∈ db2.skills, s.id = id) →
      (DeleteSkill db2 id).1 = .ok () ∧
      (DeleteSkill db2 id).2.skills = db2.skills.filter (fun s => s.id != id) ∧
      ∀ s ∈ (DeleteSkill db2 id).2.skills, s.id ≠ id := by
    intro db2 hno ⟨s0, hs0, hs0id⟩
    have hany : db2.consultantSkills.any (fun p => p.2 == id) = false := by
      rw [Bool.eq_false_iff]
      intro hco
      obtain ⟨p, hp, hpid⟩ := List.any_eq_true.mp hco
      exact hno p hp (by simpa using hpid)
    have hlen : ¬ (db2.skills.filter (fun s => s.id == id)).length = 0 := by
      intro hzero
      rw [List.length_eq_zero, List.filter_eq_nil_iff] at hzero
      exact hzero s0 hs0 (by simpa using hs0id)
    refine ⟨?_, ?_, ?_⟩
    · simp [DeleteSkill, hany, hlen]
    · simp [DeleteSkill, hany, hlen]
    · intro s hs
      rw [DeleteSkill] at hs
      simp only [hany, Bool.false_eq_true, if_false, hlen, if_false] at hs
      have := (List.mem_filter.mp hs).2
      simpa using this
  refine ⟨?_, hok db, ?_⟩
  · intro ⟨p, hp, hpid⟩
    have hany : db.consultantSkills.any (fun p => p.2 == id) = true :=
      List.any_eq_true.mpr ⟨p, hp, by simpa using hpid⟩
    simp [DeleteSkill, hany]
  · intro cid db1 honly hex hdel
    have hdb1 := deleteConsultant_ok_eq hdel
    subst hdb1
    refine (hok _ ?_ ?_).1
    · intro p hp hpid
      have h1 : p ∈ db.consultantSkills := (List.mem_filter.mp hp).1
      have h2 : (p.1 != cid) = true := (List.mem_filter.mp hp).2
      exact (by simpa using h2 : p.1 ≠ cid) (honly p h1 hpid)
    · exact hex

/-- C5 witness: on a concrete store, deleting a referenced skill fails in-use,
and after the referencing consultant is deleted, the skill delete succeeds. -/
theorem deleteSkill_in_use_check_witness :
    DeleteSkill ⟨[⟨1, "Go", "Backend"⟩], [⟨1, "Ann", "ann@x.com"⟩], [(1, 1)], 2, 2⟩ 1 =
      (.error (.inUse 1), ⟨[⟨1, "Go", "Backend"⟩], [⟨1, "Ann", "ann@x.com"⟩], [(1, 1)], 2, 2⟩) ∧
    (DeleteSkill (DeleteConsultant
        ⟨[⟨1, "Go", "Backend"⟩], [⟨1, "Ann", "ann@x.com"⟩], [(1, 1)], 2, 2⟩ 1).2 1).1 =
      .ok () := by
  constructor
  · exact (deleteSkill_in_use_check
      ⟨[⟨1, "Go", "Backend"⟩], [⟨1, "Ann", "ann@x.com"⟩], [(1, 1)], 2, 2⟩ 1).1
      ⟨(1, 1), by decide, rfl⟩
  · have h := (deleteSkill_in_use_check
      ⟨[⟨1, "Go", "Backend"⟩], [⟨1, "Ann", "ann@x.com"⟩], [(1, 1)], 2, 2⟩ 1).2.2 1
      ⟨[⟨1, "Go", "Backend"⟩], [], [], 2, 2⟩ (by decide) ⟨⟨1, "Go", "Backend"⟩, by decide, rfl⟩
      (by decide)
    simpa using h

/-- The database states reached along the spec's concrete scenario. -/
def scenarioDB1 : DB := (CreateSkill emptyDB ⟨0, "Go", "Backend"⟩).2

def scenarioDB2 : DB := (CreateSkill scenarioDB1 ⟨0, "SQL", ""⟩).2

def scenarioDB3 : DB := (CreateConsultant scenarioDB2 ⟨0, "Ann", "ann@x.com", [1, 2], none⟩).2

def scenarioDB4 : DB := (UpdateConsultant scenarioDB3 1 ⟨0, "Ann", "ann@x.com", [2], none⟩).2

/-- C7: from the empty store, creating skills Go and SQL yields ids 1 and 2,
creating consultant Ann with skills [1,2] yields id 1, getBySkill(1) returns
exactly Ann, after updating Ann to skills [2] getBySkill(1) is empty, and
deleting skill 1 then succeeds. -/
theorem concrete_scenario_holds :
    (CreateSkill emptyDB ⟨0, "Go", "Backend"⟩).1 = .ok ⟨1, "Go", "Backend"⟩ ∧
    (CreateSkill scenarioDB1 ⟨0, "SQL", ""⟩).1 = .ok ⟨2, "SQL", ""⟩ ∧
    (CreateConsultant scenarioDB2 ⟨0, "Ann", "ann@x.com", [1, 2], none⟩).1 =
      .ok ⟨1, "Ann", "ann@x.com", [1, 2], none⟩ ∧
    GetConsultantsBySkill scenarioDB3 1 = [⟨1, "Ann", "ann@x.com", [1, 2], none⟩] ∧
    (UpdateConsultant scenarioDB3 1 ⟨0, "Ann", "ann@x.com", [2], none⟩).1 =
      .ok ⟨1, "Ann", "ann@x.com", [2], none⟩ ∧
    GetConsultantsBySkill scenarioDB4 1 = [] ∧
    (DeleteSkill scenarioDB4 1).1 = .ok () := by
  decide

/-- C8: a successful consultant update returns and stores the consultant under
the path id, whatever id the input carried — in the SQL repository and in the
in-memory store alike. -/
theorem update_assigns_path_id (db : DB) (s : Data.Store) (id : Int) (c : Consultant) :
    (∀ c1 db1, UpdateConsultant db id c = (.ok c1, db1) →
        c1.id = id ∧ ∃ g, GetConsultant db1 id = .ok g ∧ g.id = id) ∧
    (∀ c2 s1, Data.Store.UpdateConsultant s id c = (.ok c2, s1) →
        c2.id = id ∧ Data.mapFind s1.consultants id = some c2) := by
  constructor
  · intro c1 db1 h
    obtain ⟨hc1, -, -, -, -⟩ := updateConsultant_ok_inv h
    exact ⟨by rw [hc1], ⟨_, updateConsultant_get_ok h, rfl⟩⟩
  · intro c2 s1 h
    unfold Data.Store.UpdateConsultant at h
    split_ifs at h with hcond
    · have h2 : (Prod.mk (Except.ok { c with id := id } : Except DBErr Consultant)
          ({ s with consultants := Data.mapInsert s.consultants id { c with id := id } } :
            Data.Store)) = (Except.ok c2, s1) := h
      injection h2 with ha hb
      injection ha with ha2
      constructor
      · rw [← ha2]
      · rw [← hb, ← ha2]
        exact Data.mapFind_mapInsert s.consultants id { c with id := id }
    · exact absurd h (by simp)

/-- C8 witness: both repositories at a concrete input whose id field is 99. -/
theorem update_assigns_path_id_witness :
    ((⟨1, "B", "b@x.com", [], none⟩ : Consultant).id = 1 ∧
      ∃ g, GetConsultant ⟨[], [⟨1, "B", "b@x.com"⟩], [], 1, 2⟩ 1 = .ok g ∧ g.id = 1) ∧
    ((⟨1, "B", "b@x.com", [], none⟩ : Consultant).id = 1 ∧
      Data.mapFind ([(1, (⟨1, "B", "b@x.com", [], none⟩ : Consultant))]) 1 =
        some ⟨1, "B", "b@x.com", [], none⟩) := by
  have h := update_assigns_path_id ⟨[], [⟨1, "Ann", "ann@x.com"⟩], [], 1, 2⟩
    ⟨[(1, ⟨5, "Old", "old@x.com", [], none⟩)], [], [], 2, 1, 1⟩ 1
    ⟨99, "B", "b@x.com", [], none⟩
  exact ⟨h.1 ⟨1, "B", "b@x.com", [], none⟩ ⟨[], [⟨1, "B", "b@x.com"⟩], [], 1, 2⟩ (by decide),
         h.2 ⟨1, "B", "b@x.com", [], none⟩
           ⟨[(1, ⟨1, "B", "b@x.com", [], none⟩)], [], [], 2, 1, 1⟩ (by decide)⟩

/-- C10: after a successful project delete, the consultants map is the old map
with exactly the `ProjectID` references to the deleted id cleared to nil — so
no consultant references the deleted project and no other field changes. -/
theorem deleteProject_clears_references (s : Data.Store) (id : Int) (s1 : Data.Store)
    (h : Data.Store.DeleteProject s id = (.ok (), s1)) :
    s1.consultants = s.consultants.map (fun kv =>
        if kv.2.projectID == some id then (kv.1, { kv.2 with projectID := none }) else kv) ∧
    (∀ kv ∈ s1.consultants, kv.2.projectID ≠ some id) := by
  unfold Data.Store.DeleteProject at h
  split_ifs at h with hp
  · have h2 : (Prod.mk (Except.ok () : Except DBErr Unit)
        ({ s with projects := s.projects.filter (fun kv => kv.1 != id),
                  consultants := s.consultants.map (fun kv =>
                    if kv.2.projectID == some id then
                      (kv.1, { kv.2 with projectID := none }) else kv) } : Data.Store)) =
        (Except.ok (), s1) := h
    injection h2 with ha hb
    constructor
    · rw [← hb]
    · intro kv hkv
      rw [← hb] at hkv
      have hkv2 : kv ∈ s.consultants.map (fun kv =>
          if kv.2.projectID == some id then (kv.1, { kv.2 with projectID := none }) else kv) :=
        hkv
      obtain ⟨kv0, -, rfl⟩ := List.mem_map.mp hkv2
      by_cases h0 : (kv0.2.projectID == some id) = true
      · simp [h0]
      · rw [if_neg h0]
        simpa using h0
  · exact absurd h (by simp)

/-- C10 witness: deleting project 1 on the seeded store clears John Doe's
reference and leaves every other field as it was. -/
theorem deleteProject_clears_references_witness :
    (Data.Store.DeleteProject Data.NewStore 1).2.consultants =
      Data.NewStore.consultants.map (fun kv =>
        if kv.2.projectID == some 1 then (kv.1, { kv.2 with projectID := none }) else kv) ∧
    ∀ kv ∈ (Data.Store.DeleteProject Data.NewStore 1).2.consultants,
      kv.2.projectID ≠ some 1 :=
  deleteProject_clears_references Data.NewStore 1
    (Data.Store.DeleteProject Data.NewStore 1).2 (by decide)

/-- The inputs of the id-monotonicity witness. -/
def c9Store : Data.Store := ⟨[], [], [], 1, 1, 1⟩

def c9Ops : List Data.StoreOp :=
  [.createSkill ⟨0, "Go", "Backend"⟩,
   .createConsultant ⟨0, "Ann", "ann@x.com", [1], none⟩,
   .deleteConsultant 1]

def c9C1 : Consultant := ⟨0, "Bob", "bob@x.com", [], none⟩

def c9C2 : Consultant := ⟨0, "Cid", "cid@x.com", [], none⟩

def c9K1 : Skill := ⟨0, "SQL", ""⟩

def c9K2 : Skill := ⟨0, "Rust", ""⟩

/-- C9: across any interleaving of store operations, the ids assigned by
successive consultant creates are strictly increasing, and every consultant id
ever present earlier is strictly below any later-assigned id (so a deleted id
is never reassigned); likewise for skills. -/
theorem store_ids_monotone_never_reused (s : Data.Store) (hs : s.Inv)
    (ops₁ ops₂ : List Data.StoreOp) (c₁ c₂ : Consultant) (k₁ k₂ : Skill) :
    (((Data.applyOps ((Data.applyOps s ops₁).CreateConsultant c₁).2 ops₂).CreateConsultant
        c₂).1.id > ((Data.applyOps s ops₁).CreateConsultant c₁).1.id) ∧
    (∀ kv ∈ (Data.applyOps s ops₁).consultants,
      kv.1 < ((Data.applyOps ((Data.applyOps s ops₁).CreateConsultant c₁).2
        ops₂).CreateConsultant c₂).1.id) ∧
    (((Data.applyOps ((Data.applyOps s ops₁).CreateSkill k₁).2 ops₂).CreateSkill k₂).1.id >
      ((Data.applyOps s ops₁).CreateSkill k₁).1.id) ∧
    (∀ kv ∈ (Data.applyOps s ops₁).skills,
      kv.1 < ((Data.applyOps ((Data.applyOps s ops₁).CreateSkill k₁).2
        ops₂).CreateSkill k₂).1.id) := by
  obtain ⟨h1inv, -, -⟩ := Data.applyOps_inv_mono ops₁ s hs
  have hcinv : ((Data.applyOps s ops₁).CreateConsultant c₁).2.Inv :=
    (Data.applyOp_inv_mono (Data.applyOps s ops₁) (.createConsultant c₁) h1inv).1
  have hkinv : ((Data.applyOps s ops₁).CreateSkill k₁).2.Inv :=
    (Data.applyOp_inv_mono (Data.applyOps s ops₁) (.createSkill k₁) h1inv).1
  obtain ⟨-, hcmono, -⟩ :=
    Data.applyOps_inv_mono ops₂ ((Data.applyOps s ops₁).CreateConsultant c₁).2 hcinv
  obtain ⟨-, -, hkmono⟩ :=
    Data.applyOps_inv_mono ops₂ ((Data.applyOps s ops₁).CreateSkill k₁).2 hkinv
  have hcmono2 : (Data.applyOps s ops₁).nextConsultantID + 1 ≤
      (Data.applyOps ((Data.applyOps s ops₁).CreateConsultant c₁).2 ops₂).nextConsultantID :=
    hcmono
  have hkmono2 : (Data.applyOps s ops₁).nextSkillID + 1 ≤
      (Data.applyOps ((Data.applyOps s ops₁).CreateSkill k₁).2 ops₂).nextSkillID :=
    hkmono
  obtain ⟨hcb, hkb, -⟩ := h1inv
  refine ⟨?_, ?_, ?_, ?_⟩
  · show (Data.applyOps ((Data.applyOps s ops₁).CreateConsultant c₁).2
        ops₂).nextConsultantID > (Data.applyOps s ops₁).nextConsultantID
    omega
  · intro kv hkv
    have := hcb kv hkv
    show kv.1 < (Data.applyOps ((Data.applyOps s ops₁).CreateConsultant c₁).2
        ops₂).nextConsultantID
    omega
  · show (Data.applyOps ((Data.applyOps s ops₁).CreateSkill k₁).2
        ops₂).nextSkillID > (Data.applyOps s ops₁).nextSkillID
    omega
  · intro kv hkv
    have := hkb kv hkv
    show kv.1 < (Data.applyOps ((Data.applyOps s ops₁).CreateSkill k₁).2
        ops₂).nextSkillID
    omega

/-- C9 witness: a concrete run creating, deleting, then creating again. -/
theorem store_ids_monotone_never_reused_witness :
    (((Data.applyOps ((Data.applyOps c9Store c9Ops).CreateConsultant c9C1).2
        []).CreateConsultant c9C2).1.id >
      ((Data.applyOps c9Store c9Ops).CreateConsultant c9C1).1.id) ∧
    (∀ kv ∈ (Data.applyOps c9Store c9Ops).consultants,
      kv.1 < ((Data.applyOps ((Data.applyOps c9Store c9Ops).CreateConsultant c9C1).2
        []).CreateConsultant c9C2).1.id) ∧
    (((Data.applyOps ((Data.applyOps c9Store c9Ops).CreateSkill c9K1).2
        []).CreateSkill c9K2).1.id >
      ((Data.applyOps c9Store c9Ops).CreateSkill c9K1).1.id) ∧
    (∀ kv ∈ (Data.applyOps c9Store c9Ops).skills,
      kv.1 < ((Data.applyOps ((Data.applyOps c9Store c9Ops).CreateSkill c9K1).2
        []).CreateSkill c9K2).1.id) :=
  store_ids_monotone_never_reused c9Store
    (by unfold Data.Store.Inv; decide) c9Ops [] c9C1 c9C2 c9K1 c9K2

end GoService
